import Mathlib

/-!
Verification of the Lidl-Christmas-Grid image-to-mosaic pipeline.

Shallow embedding of the TypeScript sources:
* `src/src/lib/palette.ts` — palette constants, quantization, contrast /
  saturation / dither transforms, Bayer matrix;
* `src/mapping.ts` — luminance and Sobel edge detection;
* `src/unnamed/part_000` (glyphs) — pixel-aligned glyph draw operations;
* `src/render.ts` — the frame renderer (grid sizing, cell pipeline,
  prominence analysis, glyph selection, draw-call list).

Colors are triples of rationals (JavaScript numbers carry exact decimal
literals here); `Math.pow`/`Math.sqrt` based computations (the linearized
palette distance and the Sobel gradient magnitude) live in `ℝ`.
-/

/-- RGB color: three channels, nominally in `[0,1]`. -/
abbrev RGB : Type := ℚ × ℚ × ℚ

/-- JavaScript `Math.round`: round half toward positive infinity. -/
def jsRound (q : ℚ) : ℤ := ⌊q + 1/2⌋

/-- First active palette entry `#0052B0` (blue). -/
def paletteBlue : RGB := (0x00 / 255, 0x52 / 255, 0xB0 / 255)

/-- Second active palette entry `#012464` (dark blue / navy). -/
def paletteNavy : RGB := (0x01 / 255, 0x24 / 255, 0x64 / 255)

/-- Third active palette entry `#FFF202` (yellow). -/
def paletteYellow : RGB := (0xFF / 255, 0xF2 / 255, 0x02 / 255)

/-- The `ACTIVE_PALETTE` of `palette.ts`: exactly these three colors. -/
def ACTIVE_PALETTE : List RGB := [paletteBlue, paletteNavy, paletteYellow]

/-- Background color of `render.ts`: `ACTIVE_PALETTE[0]` (`#0052B0`). -/
def BACKGROUND_COLOR : RGB := ACTIVE_PALETTE.headI

/-- The 4×4 Bayer matrix of `palette.ts`, entries normalized by 16. -/
def BAYER_4X4 : List ℚ :=
  [0/16, 8/16, 2/16, 10/16,
   12/16, 4/16, 14/16, 6/16,
   3/16, 11/16, 1/16, 9/16,
   15/16, 7/16, 13/16, 5/16]

/-- Index computed by `bayer4`: `(y % 4) * 4 + (x % 4)`. -/
def bayerIndex (x y : ℕ) : ℕ := y % 4 * 4 + x % 4

/-- Array lookup of `bayer4`; `none` models the out-of-bounds
(`undefined`) branch of the JavaScript array access. -/
def bayerLookup (x y : ℕ) : Option ℚ := BAYER_4X4.get? (bayerIndex x y)

/-- The `bayer4` value; the `getD 0` default is the unreachable
out-of-bounds branch. -/
def bayer4 (x y : ℕ) : ℚ := (bayerLookup x y).getD 0

/-- The `applyDither` of `palette.ts`: identity fast path for
`amount ≤ 0`, otherwise a signed Bayer offset added to all channels,
clamped per channel. -/
def applyDither (rgb : RGB) (amount : ℚ) (x y : ℕ) : RGB :=
  if amount ≤ 0 then rgb
  else
    let threshold := bayer4 x y
    let ditherValue := (threshold - 1/2) * amount * (1/10)
    (max 0 (min 1 (rgb.1 + ditherValue)),
     max 0 (min 1 (rgb.2.1 + ditherValue)),
     max 0 (min 1 (rgb.2.2 + ditherValue)))

/-- The `applyContrast` of `palette.ts`: identity fast path for
`contrast = 1`, otherwise scaling about the 0.5 midpoint, clamped. -/
def applyContrast (rgb : RGB) (contrast : ℚ) : RGB :=
  if contrast = 1 then rgb
  else
    (max 0 (min 1 ((rgb.1 - 1/2) * contrast + 1/2)),
     max 0 (min 1 ((rgb.2.1 - 1/2) * contrast + 1/2)),
     max 0 (min 1 ((rgb.2.2 - 1/2) * contrast + 1/2)))

/-- The `applySaturation` of `palette.ts`: identity fast path for
`saturation = 1`, otherwise blending each channel with the luminance,
clamped. -/
def applySaturation (rgb : RGB) (saturation : ℚ) : RGB :=
  if saturation = 1 then rgb
  else
    let luma := 0.2126 * rgb.1 + 0.7152 * rgb.2.1 + 0.0722 * rgb.2.2
    (max 0 (min 1 (luma + (rgb.1 - luma) * saturation)),
     max 0 (min 1 (luma + (rgb.2.1 - luma) * saturation)),
     max 0 (min 1 (luma + (rgb.2.2 - luma) * saturation)))

/-- All three channels of a color lie in `[0,1]`. -/
def inUnitRange (c : RGB) : Prop :=
  0 ≤ c.1 ∧ c.1 ≤ 1 ∧ 0 ≤ c.2.1 ∧ c.2.1 ≤ 1 ∧ 0 ≤ c.2.2 ∧ c.2.2 ≤ 1

instance (c : RGB) : Decidable (inUnitRange c) := by
  unfold inUnitRange; infer_instance

/-- The `srgbToLinear` of `palette.ts`: piecewise gamma decode; the
power-law branch uses the real exponent 2.4 (`Math.pow`). -/
noncomputable def srgbToLinear (c : ℚ) : ℝ :=
  if c ≤ 0.04045 then (c : ℝ) / 12.92
  else (((c : ℝ) + 0.055) / 1.055) ^ (2.4 : ℝ)

/-- The `toLinear` of `palette.ts`: channelwise gamma decode. -/
noncomputable def toLinear (rgb : RGB) : ℝ × ℝ × ℝ :=
  (srgbToLinear rgb.1, srgbToLinear rgb.2.1, srgbToLinear rgb.2.2)

/-- The `colorDistance` of `palette.ts`: Euclidean distance between the
linearized colors. -/
noncomputable def colorDistance (a b : RGB) : ℝ :=
  let aLin := toLinear a
  let bLin := toLinear b
  let dr := aLin.1 - bLin.1
  let dg := aLin.2.1 - bLin.2.1
  let db := aLin.2.2 - bLin.2.2
  Real.sqrt (dr * dr + dg * dg + db * db)

open Classical in
/-- Loop body of `nearestBrandColor`: fold over the palette keeping the
entry of least distance; `minDist` starts at `Infinity` (`⊤ : EReal`)
and is updated on a strict decrease. -/
noncomputable def nearestGo (rgb : RGB) : List RGB → RGB × EReal → RGB × EReal
  | [], acc => acc
  | color :: rest, acc =>
      nearestGo rgb rest
        (if (colorDistance rgb color : EReal) < acc.2
          then (color, (colorDistance rgb color : EReal)) else acc)

/-- The `nearestBrandColor` of `palette.ts`: the active-palette member of
least linearized distance, `nearest` initialized to `ACTIVE_PALETTE[0]`. -/
noncomputable def nearestBrandColor (rgb : RGB) : RGB :=
  (nearestGo rgb ACTIVE_PALETTE (ACTIVE_PALETTE.headI, ⊤)).1

/-- The `applyPaletteMix` of `palette.ts`: the mix argument is ignored
and the nearest palette color is always returned. -/
noncomputable def applyPaletteMix (rgb : RGB) (_mix : ℚ) : RGB :=
  nearestBrandColor rgb

/-- The `colorMatch` helper of `render.ts`: per-channel absolute
difference strictly below the tolerance. -/
def colorMatch (c1 c2 : RGB) (tolerance : ℚ) : Prop :=
  |c1.1 - c2.1| < tolerance ∧ |c1.2.1 - c2.2.1| < tolerance ∧
    |c1.2.2 - c2.2.2| < tolerance

instance (c1 c2 tolerance) : Decidable (colorMatch c1 c2 tolerance) := by
  unfold colorMatch; infer_instance

/-- Color key of the prominence count map in `render.ts`:
`Math.round(channel * 255)` per channel. -/
def colorKey (c : RGB) : ℤ × ℤ × ℤ :=
  (jsRound (c.1 * 255), jsRound (c.2.1 * 255), jsRound (c.2.2 * 255))

/-- Decoding of a count-map key back to a color in `render.ts`
(`[r / 255, g / 255, b / 255]`). -/
def keyToColor (k : ℤ × ℤ × ℤ) : RGB :=
  ((k.1 : ℚ) / 255, (k.2.1 : ℚ) / 255, (k.2.2 : ℚ) / 255)

/-- Lookup in the insertion-ordered count list (JavaScript
`Map.get(key) || 0`). -/
def lookupCount : List ((ℤ × ℤ × ℤ) × ℕ) → (ℤ × ℤ × ℤ) → ℕ
  | [], _ => 0
  | (k', c) :: rest, k => if k' = k then c else lookupCount rest k

/-- JavaScript `Map.set(key, get(key)+1)`: bump the key's count in
place, appending a fresh entry when the key is new (insertion order). -/
def bumpCount : List ((ℤ × ℤ × ℤ) × ℕ) → (ℤ × ℤ × ℤ) → List ((ℤ × ℤ × ℤ) × ℕ)
  | [], k => [(k, 1)]
  | (k', c) :: rest, k =>
      if k' = k then (k', c + 1) :: rest else (k', c) :: bumpCount rest k

/-- First counting pass of `render.ts`: cells matching the background
within tolerance 0.01 are skipped, every other cell bumps the count of
its rounded color key. -/
def countColors (colors : List RGB) : List ((ℤ × ℤ × ℤ) × ℕ) :=
  colors.foldl
    (fun acc c =>
      if colorMatch c BACKGROUND_COLOR 0.01 then acc else bumpCount acc (colorKey c))
    []

/-- Prominent-color loop of `render.ts`: scan the count entries keeping
the first entry whose count strictly exceeds the running maximum
(`maxCount` starts at 0, `prominentColor` at `null`). -/
def promLoop : List ((ℤ × ℤ × ℤ) × ℕ) → Option (ℤ × ℤ × ℤ) × ℕ → Option (ℤ × ℤ × ℤ) × ℕ
  | [], acc => acc
  | (k, c) :: rest, acc => promLoop rest (if c > acc.2 then (some k, c) else acc)

/-- Prominence analyzer of `render.ts` on a row-major list of finalized
cell colors: `null` when no non-background cell was counted, else the
decoded key of the first maximal count. -/
def prominentColorOf (colors : List RGB) : Option RGB :=
  ((promLoop (countColors colors) (none, 0)).1).map keyToColor

/-- The `luminance` of `mapping.ts`: ITU-R BT.709 weighted sum. -/
def luminance (r g b : ℚ) : ℚ := 0.2126 * r + 0.7152 * g + 0.0722 * b

/-- Sobel X kernel of `detectEdges`, row-major. -/
def sobelX : List ℤ := [-1, 0, 1, -2, 0, 2, -1, 0, 1]

/-- Sobel Y kernel of `detectEdges`, row-major. -/
def sobelY : List ℤ := [-1, -2, -1, 0, 0, 0, 1, 2, 1]

/-- Luminance sampled by `detectEdges` at signed coordinates, with
edge-clamped sampling; `data` is the flat RGBA byte array of the
downsampled `ImageData`. -/
def lumaAt (data : ℕ → ℕ) (width height : ℕ) (px py : ℤ) : ℚ :=
  let clampedX := (max 0 (min ((width : ℤ) - 1) px)).toNat
  let clampedY := (max 0 (min ((height : ℤ) - 1) py)).toNat
  let idx := (clampedY * width + clampedX) * 4
  luminance ((data idx : ℚ) / 255) ((data (idx + 1) : ℚ) / 255)
    ((data (idx + 2) : ℚ) / 255)

/-- One Sobel accumulation of `detectEdges`: the double loop over the
3×3 neighborhood of `(x, y)`, kernel index `(ky+1)*3 + (kx+1)`. -/
def gradAt (kernel : List ℤ) (data : ℕ → ℕ) (width height x y : ℕ) : ℚ :=
  (List.range 3).foldl
    (fun acc (ky : ℕ) =>
      (List.range 3).foldl
        (fun acc2 (kx : ℕ) =>
          acc2 + lumaAt data width height ((x : ℤ) + (kx : ℤ) - 1)
              ((y : ℤ) + (ky : ℤ) - 1) * ((kernel.getD (ky * 3 + kx) 0 : ℤ) : ℚ))
        acc)
    0

/-- Edge flag of `detectEdges` at one cell: the gradient magnitude
`sqrt(gx² + gy²)` exceeds the fixed threshold 0.15. -/
noncomputable def edgeAt (data : ℕ → ℕ) (width height x y : ℕ) : Bool :=
  let gx := gradAt sobelX data width height x y
  let gy := gradAt sobelY data width height x y
  @decide (Real.sqrt ((gx : ℝ) * gx + (gy : ℝ) * gy) > 0.15)
    (Classical.propDecidable _)

/-- The `detectEdges` of `mapping.ts`: row-major boolean edge map over
the downsampled grid. -/
noncomputable def detectEdges (data : ℕ → ℕ) (width height : ℕ) : List (List Bool) :=
  (List.range height).map fun y => (List.range width).map fun x =>
    edgeAt data width height x y

/-- Glyph vocabulary of `types.ts`. -/
inductive Glyph where
  | diamond : Glyph
  | square : Glyph
  | circle : Glyph
deriving DecidableEq

/-- Draw instructions issued against the canvas context: fill-style
changes, filled rectangles, circle and diamond paths, and stroked
grid lines. Coordinates are the exact arguments of the context calls. -/
inductive DrawOp where
  | setFill : ℤ → ℤ → ℤ → DrawOp
  | fillRect : ℚ → ℚ → ℚ → ℚ → DrawOp
  | circlePath : ℚ → ℚ → ℚ → DrawOp
  | diamondPath : ℚ → ℚ → ℚ → DrawOp
  | strokeLine : ℚ → ℚ → ℚ → ℚ → DrawOp
deriving DecidableEq

/-- The `drawSquare` of the glyphs module: corner snapped with
`Math.round(c - size/2)`, side `Math.round(size)`. -/
def drawSquare (cx cy size : ℚ) : DrawOp :=
  DrawOp.fillRect (jsRound (cx - size * (1/2)) : ℤ) (jsRound (cy - size * (1/2)) : ℤ)
    (jsRound size : ℤ) (jsRound size : ℤ)

/-- The `drawCircle` of the glyphs module: center snapped to half pixels
with `Math.round(c * 2) / 2`, radius `size/2`. -/
def drawCircle (cx cy size : ℚ) : DrawOp :=
  DrawOp.circlePath ((jsRound (cx * 2) : ℚ) / 2) ((jsRound (cy * 2) : ℚ) / 2)
    (size * (1/2))

/-- The `drawDiamond` of the glyphs module: center snapped to integers
with `Math.round`, half-diagonal `size/2`. -/
def drawDiamond (cx cy size : ℚ) : DrawOp :=
  DrawOp.diamondPath (jsRound cx : ℤ) (jsRound cy : ℤ) (size * (1/2))

/-- The `drawGlyph` dispatcher of the glyphs module. -/
def drawGlyph (glyph : Glyph) (cx cy size : ℚ) : DrawOp :=
  match glyph with
  | Glyph.square => drawSquare cx cy size
  | Glyph.circle => drawCircle cx cy size
  | Glyph.diamond => drawDiamond cx cy size

/-- Geometric center of the figure a draw operation fills. -/
def opCenter : DrawOp → ℚ × ℚ
  | DrawOp.setFill _ _ _ => (0, 0)
  | DrawOp.fillRect x y w h => (x + w * (1/2), y + h * (1/2))
  | DrawOp.circlePath cx cy _ => (cx, cy)
  | DrawOp.diamondPath cx cy _ => (cx, cy)
  | DrawOp.strokeLine x1 y1 x2 y2 => ((x1 + x2) * (1/2), (y1 + y2) * (1/2))

/-- The `KnitParams` of `types.ts`. -/
structure KnitParams where
  stitchPx : ℚ
  paletteMix : ℚ
  dither : ℚ
  contrast : ℚ
  saturation : ℚ
  edgeCrispness : ℚ
  showGridLines : Bool

/-- Grid dimension of `renderKnitFrame`:
`Math.floor(size / Math.max(4, Math.min(100, params.stitchPx)))`,
computed identically for columns and rows. -/
def gridDim (size : ℕ) (stitchPx : ℚ) : ℕ :=
  (⌊(size : ℚ) / max 4 (min 100 stitchPx)⌋).toNat

/-- Prominence/parity glyph choice of `render.ts` before the edge bias:
`isProminent = prominentColor && colorMatch(finalColor, prominentColor)`;
prominent cells alternate circle/square on `(x + y) % 2`, all other
cells default to diamond. -/
def baseGlyph (finalColor : RGB) (prominentColor : Option RGB) (x y : ℕ) : Glyph :=
  match prominentColor with
  | some p =>
      if colorMatch finalColor p 0.01 then
        (if (x + y) % 2 = 0 then Glyph.circle else Glyph.square)
      else Glyph.diamond
  | none => Glyph.diamond

/-- Per-cell glyph decision of the second pass of `render.ts`:
background-matching cells are skipped (`none`); otherwise the
prominence/parity glyph, overridden to diamond when the cell is an edge,
`edgeCrispness > 0`, and the `Math.random()` draw (`rand`) falls below
`edgeCrispness * 0.3`. -/
def cellGlyph (finalColor : RGB) (prominentColor : Option RGB) (x y : ℕ)
    (onEdge : Bool) (edgeCrispness : ℚ) (rand : ℚ) : Option Glyph :=
  if colorMatch finalColor BACKGROUND_COLOR 0.01 then none
  else some
    (if onEdge = true ∧ edgeCrispness > 0 ∧ rand < edgeCrispness * 0.3 then
      Glyph.diamond
    else baseGlyph finalColor prominentColor x y)

/-- Finalized color of one cell in the first pass of `render.ts`:
transparent cells (`alpha < 0.05`) become the background color, opaque
cells run contrast → saturation → dither → palette mix → final
quantization. `data` is the flat RGBA array sampled at grid size. -/
noncomputable def cellColorAt (data : ℕ → ℕ) (params : KnitParams)
    (cols x y : ℕ) : RGB :=
  let pixelIndex := (y * cols + x) * 4
  let alpha := (data (pixelIndex + 3) : ℚ) / 255
  if alpha < 0.05 then BACKGROUND_COLOR
  else
    let rgb : RGB := ((data pixelIndex : ℚ) / 255, (data (pixelIndex + 1) : ℚ) / 255,
      (data (pixelIndex + 2) : ℚ) / 255)
    let contrasted := applyContrast rgb params.contrast
    let saturated := applySaturation contrasted params.saturation
    let dithered := applyDither saturated params.dither x y
    nearestBrandColor (applyPaletteMix dithered params.paletteMix)

/-- Edge-map lookup `edgeMap[y]?.[x] ?? false` of `render.ts`. -/
def lookupEdge (edgeMap : List (List Bool)) (y x : ℕ) : Bool :=
  (((edgeMap.get? y).bind fun row => row.get? x).getD false)

/-- Grid-line strokes of `render.ts` (one per row and column boundary,
drawn when `showGridLines` is set). -/
def gridLineOps (cols rows : ℕ) (cellWidth cellHeight size : ℚ) : List DrawOp :=
  ((List.range (rows + 1)).map fun y =>
    DrawOp.strokeLine 0 (jsRound ((y : ℚ) * cellHeight) : ℤ) size
      (jsRound ((y : ℚ) * cellHeight) : ℤ)) ++
  ((List.range (cols + 1)).map fun x =>
    DrawOp.strokeLine (jsRound ((x : ℚ) * cellWidth) : ℤ) 0
      (jsRound ((x : ℚ) * cellWidth) : ℤ) size)

/-- The `renderKnitFrame` of `render.ts` as a list of draw operations.
`sample` abstracts the external rasterizer of `sampler.ts` (it yields
the flat RGBA array of the image downsampled to `cols × rows`); `rand`
abstracts the per-cell `Math.random()` draw of the edge bias. The
function fills the background, resolves the grid (stopping there when a
dimension is zero), optionally strokes grid lines, runs the two passes,
and issues one fill-style change plus one glyph draw per drawn cell. -/
noncomputable def renderKnitFrame (sample : ℕ → ℕ → ℕ → ℕ)
    (params : KnitParams) (size : ℕ) (rand : ℕ → ℕ → ℚ) : List DrawOp :=
  let bgFill : List DrawOp :=
    [DrawOp.setFill (jsRound (BACKGROUND_COLOR.1 * 255))
        (jsRound (BACKGROUND_COLOR.2.1 * 255)) (jsRound (BACKGROUND_COLOR.2.2 * 255)),
      DrawOp.fillRect 0 0 (size : ℚ) (size : ℚ)]
  let cols := gridDim size params.stitchPx
  let rows := gridDim size params.stitchPx
  if cols = 0 ∨ rows = 0 then bgFill
  else
    let data := sample cols rows
    let edgeMap := detectEdges data cols rows
    let cellWidth := (size : ℚ) / cols
    let cellHeight := (size : ℚ) / rows
    let glyphSize := min cellWidth cellHeight * 0.8
    let gridOps := if params.showGridLines then
        gridLineOps cols rows cellWidth cellHeight (size : ℚ)
      else []
    let cellColors := (List.range rows).map fun y =>
      (List.range cols).map fun x => cellColorAt data params cols x y
    let prominentColor := prominentColorOf cellColors.join
    let glyphOps := ((List.range rows).map fun y =>
      ((List.range cols).map fun x =>
        let finalColor := cellColorAt data params cols x y
        match cellGlyph finalColor prominentColor x y (lookupEdge edgeMap y x)
            params.edgeCrispness (rand x y) with
        | none => ([] : List DrawOp)
        | some glyph =>
            [DrawOp.setFill (jsRound (finalColor.1 * 255))
                (jsRound (finalColor.2.1 * 255)) (jsRound (finalColor.2.2 * 255)),
              drawGlyph glyph (((x : ℚ) + 1/2) * cellWidth) (((y : ℚ) + 1/2) * cellHeight)
                glyphSize]).join).join
    bgFill ++ gridOps ++ glyphOps

/-- Cells counted toward key `k` by the first pass: not matching the
background within tolerance 0.01, and rounding to key `k`. -/
def countedFor (k : ℤ × ℤ × ℤ) (c : RGB) : Bool :=
  !decide (colorMatch c BACKGROUND_COLOR 0.01) && decide (colorKey c = k)

/-- A flat RGBA array whose cells all carry the same RGBA value
`(v0, v1, v2, v3)` on the first `w * h` pixels. -/
def uniformData (data : ℕ → ℕ) (w h v0 v1 v2 v3 : ℕ) : Prop :=
  ∀ i, i < w * h →
    data (i * 4) = v0 ∧ data (i * 4 + 1) = v1 ∧ data (i * 4 + 2) = v2 ∧
      data (i * 4 + 3) = v3

/-- Example cell grid: the quantized yellow appears 10 times, the
quantized navy 3 times, and the background color fills the rest. -/
def exampleCells : List RGB :=
  List.replicate 10 paletteYellow ++ List.replicate 3 paletteNavy ++
    List.replicate 7 paletteBlue

lemma clamp01_bounds (v : ℚ) : 0 ≤ max 0 (min 1 v) ∧ max 0 (min 1 v) ≤ 1 :=
  ⟨le_max_left 0 _, max_le zero_le_one (min_le_left 1 v)⟩

/-- C2: for every color and every mix value, `applyPaletteMix` returns
`nearestBrandColor` of the color: the mix argument has no effect and
strict palette quantization is always applied. -/
theorem applyPaletteMix_ignores_mix (rgb : RGB) (mix : ℚ) :
    applyPaletteMix rgb mix = nearestBrandColor rgb := rfl

/-- C5 counterexample: with the out-of-range input `(2, 0, 0)` and
contrast parameter 1, `applyContrast` takes its identity fast path and
returns the input unchanged, whose red channel is outside `[0, 1]`. -/
theorem applyContrast_fastpath_out_of_range :
    applyContrast ((2 : ℚ), 0, 0) 1 = ((2 : ℚ), 0, 0) ∧
      ¬ inUnitRange ((2 : ℚ), 0, 0) := by
  refine ⟨rfl, ?_⟩
  intro h
  exact absurd h.2.1 (by norm_num)

/-- C5 (amended): each of `applyContrast`, `applySaturation` and
`applyDither` either takes its identity fast path (contrast 1,
saturation 1, dither amount ≤ 0) and returns the input unchanged, or
returns a color whose channels all lie in `[0, 1]`; in particular all
outputs lie in `[0, 1]` whenever the input does. -/
theorem transform_outputs_clamped (rgb : RGB) (k s a : ℚ) (x y : ℕ) :
    (k = 1 ∧ applyContrast rgb k = rgb ∨ inUnitRange (applyContrast rgb k)) ∧
    (s = 1 ∧ applySaturation rgb s = rgb ∨ inUnitRange (applySaturation rgb s)) ∧
    (a ≤ 0 ∧ applyDither rgb a x y = rgb ∨ inUnitRange (applyDither rgb a x y)) := by
  refine ⟨?_, ?_, ?_⟩
  · by_cases hk : k = 1
    · exact Or.inl ⟨hk, by simp [applyContrast, hk]⟩
    · refine Or.inr ?_
      simp only [applyContrast, if_neg hk, inUnitRange]
      exact ⟨(clamp01_bounds _).1, (clamp01_bounds _).2, (clamp01_bounds _).1,
        (clamp01_bounds _).2, (clamp01_bounds _).1, (clamp01_bounds _).2⟩
  · by_cases hs : s = 1
    · exact Or.inl ⟨hs, by simp [applySaturation, hs]⟩
    · refine Or.inr ?_
      simp only [applySaturation, if_neg hs, inUnitRange]
      exact ⟨(clamp01_bounds _).1, (clamp01_bounds _).2, (clamp01_bounds _).1,
        (clamp01_bounds _).2, (clamp01_bounds _).1, (clamp01_bounds _).2⟩
  · by_cases ha : a ≤ 0
    · exact Or.inl ⟨ha, by simp [applyDither, ha]⟩
    · refine Or.inr ?_
      simp only [applyDither, if_neg ha, inUnitRange]
      exact ⟨(clamp01_bounds _).1, (clamp01_bounds _).2, (clamp01_bounds _).1,
        (clamp01_bounds _).2, (clamp01_bounds _).1, (clamp01_bounds _).2⟩

/-- C10: for all non-negative integer coordinates, the Bayer index is in
bounds (strictly below 16), the lookup hits a defined entry (the
out-of-bounds branch is unreachable), and the value lies in
`[0, 15/16]`. -/
theorem bayer4_lookup_in_bounds (x y : ℕ) :
    bayerIndex x y < 16 ∧
      ∃ v, bayerLookup x y = some v ∧ bayer4 x y = v ∧ 0 ≤ v ∧ v ≤ 15/16 := by
  have hx : x % 4 < 4 := Nat.mod_lt _ (by norm_num)
  have hy : y % 4 < 4 := Nat.mod_lt _ (by norm_num)
  have hidx : bayerIndex x y < 16 := by
    unfold bayerIndex; omega
  have hlen : bayerIndex x y < BAYER_4X4.length := by
    simpa [BAYER_4X4] using hidx
  have hsome : bayerLookup x y = some (BAYER_4X4.get ⟨bayerIndex x y, hlen⟩) := by
    unfold bayerLookup
    exact List.get?_eq_get hlen
  refine ⟨hidx, BAYER_4X4.get ⟨bayerIndex x y, hlen⟩, hsome, ?_, ?_⟩
  · rw [bayer4, hsome]
    rfl
  · have hmem : BAYER_4X4.get ⟨bayerIndex x y, hlen⟩ ∈ BAYER_4X4 :=
      List.get_mem BAYER_4X4 (bayerIndex x y) hlen
    have hall : ∀ v ∈ BAYER_4X4, 0 ≤ v ∧ v ≤ 15/16 := by
      with_unfolding_all decide
    exact hall _ hmem

/-- C9 counterexample: `drawSquare` at center (0, 0) with size 1 fills
the unit rectangle with corner (0, 0), whose geometric center (1/2, 1/2)
is not at integer pixel coordinates. -/
theorem drawSquare_center_not_integer :
    drawSquare 0 0 1 = DrawOp.fillRect 0 0 1 1 ∧
      opCenter (drawSquare 0 0 1) = (1/2, 1/2) ∧
      ∀ n : ℤ, (opCenter (drawSquare 0 0 1)).1 ≠ (n : ℚ) := by
  have hsq : drawSquare 0 0 1 = DrawOp.fillRect 0 0 1 1 := by
    unfold drawSquare jsRound
    norm_num
  refine ⟨hsq, ?_, ?_⟩
  · rw [hsq]
    unfold opCenter
    norm_num
  · intro n hn
    rw [hsq] at hn
    unfold opCenter at hn
    have h2 : (1 : ℚ) = 2 * (n : ℚ) := by
      have := congrArg (fun q => 2 * q) hn
      simpa using this
    have h3 : (1 : ℤ) = 2 * n := by exact_mod_cast h2
    omega

/-- C9 (amended): diamond draw operations snap their center to integer
pixel coordinates and circle draw operations to half-pixel coordinates,
as the claim states; square draw operations snap their top-left corner
and side length to integers, so their geometric center lies on the
half-pixel grid but is an integer only when the rounded side is even. -/
theorem glyph_draw_alignment (cx cy s : ℚ) :
    (∃ m n : ℤ, opCenter (drawDiamond cx cy s) = ((m : ℚ), (n : ℚ))) ∧
    (∃ m n : ℤ, opCenter (drawCircle cx cy s) = ((m : ℚ) / 2, (n : ℚ) / 2)) ∧
    (∃ x0 y0 w0 : ℤ,
      drawSquare cx cy s = DrawOp.fillRect (x0 : ℚ) (y0 : ℚ) (w0 : ℚ) (w0 : ℚ)) ∧
    (∃ m n : ℤ, opCenter (drawSquare cx cy s) = ((m : ℚ) / 2, (n : ℚ) / 2)) := by
  refine ⟨⟨jsRound cx, jsRound cy, rfl⟩,
    ⟨jsRound (cx * 2), jsRound (cy * 2), rfl⟩,
    ⟨jsRound (cx - s * (1/2)), jsRound (cy - s * (1/2)), jsRound s, rfl⟩, ?_⟩
  refine ⟨2 * jsRound (cx - s * (1/2)) + jsRound s,
    2 * jsRound (cy - s * (1/2)) + jsRound s, ?_⟩
  unfold drawSquare opCenter
  push_cast
  rw [Prod.mk.injEq]
  constructor <;> ring

lemma colorDistance_nonneg (a b : RGB) : 0 ≤ colorDistance a b :=
  Real.sqrt_nonneg _

lemma colorDistance_self (a : RGB) : colorDistance a a = 0 := by
  unfold colorDistance
  simp

lemma colorDistance_pos_of_red (a b : RGB)
    (h : srgbToLinear a.1 ≠ srgbToLinear b.1) : 0 < colorDistance a b := by
  unfold colorDistance toLinear
  apply Real.sqrt_pos.mpr
  have hr : 0 < (srgbToLinear a.1 - srgbToLinear b.1) * (srgbToLinear a.1 - srgbToLinear b.1) :=
    mul_self_pos.mpr (sub_ne_zero.mpr h)
  nlinarith [mul_self_nonneg (srgbToLinear a.2.1 - srgbToLinear b.2.1),
    mul_self_nonneg (srgbToLinear a.2.2 - srgbToLinear b.2.2)]

lemma srgbToLinear_zero : srgbToLinear 0 = 0 := by
  unfold srgbToLinear
  norm_num

lemma srgbToLinear_one : srgbToLinear 1 = 1 := by
  unfold srgbToLinear
  rw [if_neg (by norm_num)]
  norm_num

lemma srgbToLinear_tiny_pos : 0 < srgbToLinear (1/255) := by
  unfold srgbToLinear
  rw [if_pos (by norm_num)]
  norm_num

lemma srgbToLinear_tiny_lt_one : srgbToLinear (1/255) < 1 := by
  unfold srgbToLinear
  rw [if_pos (by norm_num)]
  norm_num

lemma red_blue : paletteBlue.1 = 0 := by norm_num [paletteBlue]

lemma red_navy : paletteNavy.1 = 1/255 := by norm_num [paletteNavy]

lemma red_yellow : paletteYellow.1 = 1 := by norm_num [paletteYellow]

lemma dist_navy_blue_pos : 0 < colorDistance paletteNavy paletteBlue := by
  apply colorDistance_pos_of_red
  rw [red_navy, red_blue, srgbToLinear_zero]
  exact ne_of_gt srgbToLinear_tiny_pos

lemma dist_yellow_blue_pos : 0 < colorDistance paletteYellow paletteBlue := by
  apply colorDistance_pos_of_red
  rw [red_yellow, red_blue, srgbToLinear_zero, srgbToLinear_one]
  norm_num

lemma dist_yellow_navy_pos : 0 < colorDistance paletteYellow paletteNavy := by
  apply colorDistance_pos_of_red
  rw [red_yellow, red_navy, srgbToLinear_one]
  exact ne_of_gt srgbToLinear_tiny_lt_one

lemma nearestGo_no_improve (rgb : RGB) (l : List RGB) (acc : RGB × EReal)
    (h : ∀ c ∈ l, ¬ ((colorDistance rgb c : EReal) < acc.2)) :
    nearestGo rgb l acc = acc := by
  induction l with
  | nil => rfl
  | cons c rest ih =>
      rw [nearestGo, if_neg (h c (List.mem_cons_self c rest))]
      exact ih fun c' hc' => h c' (List.mem_cons_of_mem c hc')

lemma nearestGo_mem (rgb : RGB) (l : List RGB) (acc : RGB × EReal) :
    (nearestGo rgb l acc).1 = acc.1 ∨ (nearestGo rgb l acc).1 ∈ l := by
  induction l generalizing acc with
  | nil => exact Or.inl rfl
  | cons c rest ih =>
      rw [nearestGo]
      split_ifs with hc
      · rcases ih (c, (colorDistance rgb c : EReal)) with h | h
        · refine Or.inr ?_
          rw [h]
          exact List.mem_cons_self c rest
        · exact Or.inr (List.mem_cons_of_mem c h)
      · rcases ih acc with h | h
        · exact Or.inl h
        · exact Or.inr (List.mem_cons_of_mem c h)

lemma nearest_fixed_blue : nearestBrandColor paletteBlue = paletteBlue := by
  unfold nearestBrandColor ACTIVE_PALETTE
  rw [nearestGo, if_pos (by exact EReal.coe_lt_top _)]
  rw [colorDistance_self]
  rw [nearestGo_no_improve]
  intro c hc
  rw [EReal.coe_lt_coe_iff]
  exact not_lt.mpr (colorDistance_nonneg _ _)

lemma nearest_fixed_navy : nearestBrandColor paletteNavy = paletteNavy := by
  unfold nearestBrandColor ACTIVE_PALETTE
  rw [nearestGo, if_pos (by exact EReal.coe_lt_top _)]
  rw [nearestGo, if_pos (by
    rw [colorDistance_self, EReal.coe_lt_coe_iff]
    exact dist_navy_blue_pos)]
  rw [colorDistance_self]
  rw [nearestGo_no_improve]
  intro c hc
  rw [EReal.coe_lt_coe_iff]
  exact not_lt.mpr (colorDistance_nonneg _ _)

lemma nearest_fixed_yellow : nearestBrandColor paletteYellow = paletteYellow := by
  unfold nearestBrandColor ACTIVE_PALETTE
  rw [nearestGo, if_pos (by exact EReal.coe_lt_top _)]
  by_cases h2 :
      (colorDistance paletteYellow paletteNavy : EReal) <
        (colorDistance paletteYellow paletteBlue : EReal)
  · rw [nearestGo, if_pos h2]
    rw [nearestGo, if_pos (by
      rw [colorDistance_self, EReal.coe_lt_coe_iff]
      exact dist_yellow_navy_pos)]
    rw [nearestGo]
  · rw [nearestGo, if_neg h2]
    rw [nearestGo, if_pos (by
      rw [colorDistance_self, EReal.coe_lt_coe_iff]
      exact dist_yellow_blue_pos)]
    rw [nearestGo]

lemma nearestBrandColor_mem (rgb : RGB) :
    nearestBrandColor rgb ∈ ACTIVE_PALETTE := by
  unfold nearestBrandColor
  rcases nearestGo_mem rgb ACTIVE_PALETTE (ACTIVE_PALETTE.headI, ⊤) with h | h
  · rw [h]
    simp [ACTIVE_PALETTE]
  · exact h

lemma nearest_of_mem (p : RGB) (hp : p ∈ ACTIVE_PALETTE) :
    nearestBrandColor p = p := by
  have hp3 : p = paletteBlue ∨ p = paletteNavy ∨ p = paletteYellow := by
    simpa [ACTIVE_PALETTE] using hp
  rcases hp3 with rfl | rfl | rfl
  · exact nearest_fixed_blue
  · exact nearest_fixed_navy
  · exact nearest_fixed_yellow

/-- C6: for every color, `nearestBrandColor` returns a member of the
fixed three-color active palette, and quantization is idempotent. -/
theorem nearestBrandColor_mem_and_idempotent (c : RGB) :
    (nearestBrandColor c ∈ ACTIVE_PALETTE ∧ ACTIVE_PALETTE.length = 3) ∧
      nearestBrandColor (nearestBrandColor c) = nearestBrandColor c :=
  ⟨⟨nearestBrandColor_mem c, rfl⟩,
    nearest_of_mem (nearestBrandColor c) (nearestBrandColor_mem c)⟩

/-- C8 counterexample: the color `[0, 0.2118, 0.4980]` quoted by the
specification is not an entry of `ACTIVE_PALETTE`, so quantizing it
cannot return it: it is not a fixed point of `nearestBrandColor`. -/
theorem quoted_navy_not_fixed_point :
    nearestBrandColor ((0 : ℚ), 0.2118, 0.4980) ≠ ((0 : ℚ), 0.2118, 0.4980) := by
  intro h
  have hmem := nearestBrandColor_mem ((0 : ℚ), 0.2118, 0.4980)
  rw [h] at hmem
  have h3 : ((0 : ℚ), (0.2118 : ℚ), (0.4980 : ℚ)) = paletteBlue ∨
      ((0 : ℚ), (0.2118 : ℚ), (0.4980 : ℚ)) = paletteNavy ∨
      ((0 : ℚ), (0.2118 : ℚ), (0.4980 : ℚ)) = paletteYellow := by
    simpa [ACTIVE_PALETTE] using hmem
  rcases h3 with h3 | h3 | h3
  · have := congrArg (fun c : RGB => c.2.1) h3
    norm_num [paletteBlue] at this
  · have := congrArg (fun c : RGB => c.2.1) h3
    norm_num [paletteNavy] at this
  · have := congrArg (fun c : RGB => c.2.1) h3
    norm_num [paletteYellow] at this

/-- C8 (amended): `nearestBrandColor` applied to a color already equal
to a member of the actual active palette (`#0052B0`, `#012464`,
`#FFF202`) returns that exact member; the value `[0, 0.2118, 0.4980]`
quoted by the specification is not one of these entries. -/
theorem palette_members_fixed_points :
    nearestBrandColor paletteBlue = paletteBlue ∧
      nearestBrandColor paletteNavy = paletteNavy ∧
      nearestBrandColor paletteYellow = paletteYellow :=
  ⟨nearest_fixed_blue, nearest_fixed_navy, nearest_fixed_yellow⟩

lemma lumaAt_uniform (data : ℕ → ℕ) (w h v0 v1 v2 v3 : ℕ)
    (hU : uniformData data w h v0 v1 v2 v3) (hw : 0 < w) (hh : 0 < h)
    (px py : ℤ) :
    lumaAt data w h px py =
      luminance ((v0 : ℚ) / 255) ((v1 : ℚ) / 255) ((v2 : ℚ) / 255) := by
  unfold lumaAt
  set cx := (max 0 (min ((w : ℤ) - 1) px)).toNat with hcx
  set cy := (max 0 (min ((h : ℤ) - 1) py)).toNat with hcy
  have hcxw : cx < w := by
    have h1 : max 0 (min ((w : ℤ) - 1) px) ≤ (w : ℤ) - 1 :=
      max_le (by omega) (min_le_left _ _)
    omega
  have hcyh : cy < h := by
    have h1 : max 0 (min ((h : ℤ) - 1) py) ≤ (h : ℤ) - 1 :=
      max_le (by omega) (min_le_left _ _)
    omega
  have hcell : cy * w + cx < w * h := by
    calc cy * w + cx < cy * w + w := by omega
    _ = (cy + 1) * w := by ring
    _ ≤ h * w := Nat.mul_le_mul_right w hcyh
    _ = w * h := Nat.mul_comm h w
  obtain ⟨h0, h1, h2, _⟩ := hU (cy * w + cx) hcell
  change luminance ((data ((cy * w + cx) * 4) : ℚ) / 255)
      ((data ((cy * w + cx) * 4 + 1) : ℚ) / 255)
      ((data ((cy * w + cx) * 4 + 2) : ℚ) / 255) =
    luminance ((v0 : ℚ) / 255) ((v1 : ℚ) / 255) ((v2 : ℚ) / 255)
  rw [h0, h1, h2]

lemma gradAt_uniform (kernel : List ℤ) (data : ℕ → ℕ) (w h v0 v1 v2 v3 : ℕ)
    (hU : uniformData data w h v0 v1 v2 v3) (hw : 0 < w) (hh : 0 < h)
    (x y : ℕ)
    (hker : ((kernel[0]?.getD 0 : ℤ) : ℚ) + (kernel[1]?.getD 0 : ℤ) +
      (kernel[2]?.getD 0 : ℤ) + (kernel[3]?.getD 0 : ℤ) + (kernel[4]?.getD 0 : ℤ) +
      (kernel[5]?.getD 0 : ℤ) + (kernel[6]?.getD 0 : ℤ) + (kernel[7]?.getD 0 : ℤ) +
      (kernel[8]?.getD 0 : ℤ) = 0) :
    gradAt kernel data w h x y = 0 := by
  have hrange : List.range 3 = [0, 1, 2] := rfl
  unfold gradAt
  rw [hrange]
  simp only [List.foldl_cons, List.foldl_nil]
  rw [lumaAt_uniform data w h v0 v1 v2 v3 hU hw hh]
  rw [lumaAt_uniform data w h v0 v1 v2 v3 hU hw hh]
  rw [lumaAt_uniform data w h v0 v1 v2 v3 hU hw hh]
  rw [lumaAt_uniform data w h v0 v1 v2 v3 hU hw hh]
  rw [lumaAt_uniform data w h v0 v1 v2 v3 hU hw hh]
  rw [lumaAt_uniform data w h v0 v1 v2 v3 hU hw hh]
  rw [lumaAt_uniform data w h v0 v1 v2 v3 hU hw hh]
  rw [lumaAt_uniform data w h v0 v1 v2 v3 hU hw hh]
  rw [lumaAt_uniform data w h v0 v1 v2 v3 hU hw hh]
  norm_num
  linear_combination luminance ((v0 : ℚ) / 255) ((v1 : ℚ) / 255) ((v2 : ℚ) / 255) * hker

/-- C7: edge detection on a uniform grid (all cells carrying the same
RGBA value) produces an edge map with no flagged cell: every entry of
`detectEdges` is `false`. -/
theorem detectEdges_uniform_all_false (data : ℕ → ℕ) (w h v0 v1 v2 v3 : ℕ)
    (hU : uniformData data w h v0 v1 v2 v3) :
    ∀ row ∈ detectEdges data w h, ∀ b ∈ row, b = false := by
  intro row hrow b hb
  simp only [detectEdges, List.mem_map] at hrow
  obtain ⟨y, hy, rfl⟩ := hrow
  simp only [List.mem_map] at hb
  obtain ⟨x, hx, rfl⟩ := hb
  have hw : 0 < w := by
    rcases Nat.eq_zero_or_pos w with h0 | h0
    · rw [h0] at hx
      simp at hx
    · exact h0
  have hh : 0 < h := by
    rcases Nat.eq_zero_or_pos h with h0 | h0
    · rw [h0] at hy
      simp at hy
    · exact h0
  unfold edgeAt
  have hgx : gradAt sobelX data w h x y = 0 := by
    apply gradAt_uniform sobelX data w h v0 v1 v2 v3 hU hw hh
    norm_num [sobelX]
  have hgy : gradAt sobelY data w h x y = 0 := by
    apply gradAt_uniform sobelY data w h v0 v1 v2 v3 hU hw hh
    norm_num [sobelY]
  apply decide_eq_false
  rw [hgx, hgy]
  push_cast
  rw [mul_zero, add_zero, Real.sqrt_zero]
  norm_num

/-- Witness for C7: a concrete constant 2×2 RGBA grid is uniform and its
edge map has no `true` entry. -/
theorem detectEdges_uniform_all_false_witness :
    uniformData (fun _ => 100) 2 2 100 100 100 100 ∧
      ∀ row ∈ detectEdges (fun _ => 100) 2 2, ∀ b ∈ row, b = false := by
  have hU : uniformData (fun _ => 100) 2 2 100 100 100 100 :=
    fun _ _ => ⟨rfl, rfl, rfl, rfl⟩
  exact ⟨hU, detectEdges_uniform_all_false (fun _ => 100) 2 2 100 100 100 100 hU⟩

/-- C4: in the deterministic case (the cell is not flagged as an edge,
or `edgeCrispness` is 0) the stochastic override is skipped:
background-matching cells get no glyph, cells matching the prominent
color alternate circle/square on `(x + y) mod 2`, and every other cell
gets a diamond. -/
theorem cellGlyph_deterministic (finalColor : RGB) (prominentColor : Option RGB)
    (x y : ℕ) (onEdge : Bool) (crisp rand : ℚ)
    (hdet : onEdge = false ∨ crisp = 0) :
    cellGlyph finalColor prominentColor x y onEdge crisp rand =
      if colorMatch finalColor BACKGROUND_COLOR 0.01 then none
      else some (match prominentColor with
        | some p =>
            if colorMatch finalColor p 0.01 then
              (if (x + y) % 2 = 0 then Glyph.circle else Glyph.square)
            else Glyph.diamond
        | none => Glyph.diamond) := by
  unfold cellGlyph baseGlyph
  rcases hdet with rfl | rfl
  · simp
  · simp

/-- Witness for C4: a concrete non-edge cell whose color is the
prominent color at even parity receives a circle via the deterministic
decision table. -/
theorem cellGlyph_deterministic_witness :
    cellGlyph paletteNavy (some paletteNavy) 0 0 false (1/2) 0 =
      if colorMatch paletteNavy BACKGROUND_COLOR 0.01 then none
      else some (match some paletteNavy with
        | some p =>
            if colorMatch paletteNavy p 0.01 then
              (if (0 + 0) % 2 = 0 then Glyph.circle else Glyph.square)
            else Glyph.diamond
        | none => Glyph.diamond) :=
  cellGlyph_deterministic paletteNavy (some paletteNavy) 0 0 false (1/2) 0
    (Or.inl rfl)

/-- C1 counterexample: with canvas size 200 and `stitchPx` 300 (larger
than the canvas), the clamp to `[4, 100]` makes the grid 2×2, not 0×0. -/
theorem large_stitch_nonzero_grid :
    (200 : ℚ) < 300 ∧ gridDim 200 300 = 2 := by
  constructor
  · norm_num
  · unfold gridDim
    norm_num [min_def, max_def]
    rfl

/-- C1 (amended): the grid dimensions are
`floor(size / clamp(stitchPx, 4, 100))` for both columns and rows; the
grid resolves to 0×0 exactly when the clamped stitch size exceeds the
canvas (so a `stitchPx` larger than the canvas gives a 0×0 grid only
while the canvas is smaller than the clamp ceiling of 100); and whenever
the dimension is 0, the rendered output is exactly the background fill,
with no glyph draw issued. -/
theorem renderKnitFrame_zero_grid_background_only (sample : ℕ → ℕ → ℕ → ℕ)
    (params : KnitParams) (size : ℕ) (rand : ℕ → ℕ → ℚ) :
    gridDim size params.stitchPx =
        (⌊(size : ℚ) / max 4 (min 100 params.stitchPx)⌋).toNat ∧
      ((size : ℚ) < max 4 (min 100 params.stitchPx) →
        gridDim size params.stitchPx = 0) ∧
      (gridDim size params.stitchPx = 0 →
        renderKnitFrame sample params size rand =
          [DrawOp.setFill 0 82 176, DrawOp.fillRect 0 0 (size : ℚ) (size : ℚ)]) := by
  refine ⟨rfl, ?_, ?_⟩
  · intro hlt
    unfold gridDim
    have hpos : (0 : ℚ) < max 4 (min 100 params.stitchPx) :=
      lt_of_lt_of_le (by norm_num) (le_max_left _ _)
    have hfloor : ⌊(size : ℚ) / max 4 (min 100 params.stitchPx)⌋ = 0 := by
      rw [Int.floor_eq_zero_iff]
      constructor
      · exact div_nonneg (Nat.cast_nonneg size) (le_of_lt hpos)
      · exact (div_lt_one hpos).mpr hlt
    rw [hfloor]
    rfl
  · intro hzero
    unfold renderKnitFrame
    rw [hzero]
    simp only [reduceIte, eq_self_iff_true, true_or, if_true]
    have h1 : jsRound (BACKGROUND_COLOR.1 * 255) = 0 := by
      norm_num [BACKGROUND_COLOR, ACTIVE_PALETTE, paletteBlue, jsRound]
    have h2 : jsRound (BACKGROUND_COLOR.2.1 * 255) = 82 := by
      norm_num [BACKGROUND_COLOR, ACTIVE_PALETTE, paletteBlue, jsRound]
    have h3 : jsRound (BACKGROUND_COLOR.2.2 * 255) = 176 := by
      norm_num [BACKGROUND_COLOR, ACTIVE_PALETTE, paletteBlue, jsRound]
    rw [h1, h2, h3]

/-- Witness for C1: on a 3-pixel canvas with `stitchPx` 10 (the clamped
stitch 10 exceeds the canvas) the grid resolves to 0 and the render is
exactly the background fill. -/
theorem renderKnitFrame_zero_grid_background_only_witness :
    ((3 : ℚ) < max 4 (min 100 (10 : ℚ)) ∧ gridDim 3 10 = 0) ∧
      renderKnitFrame (fun _ _ _ => 0)
          ⟨10, 1, 3/10, 1, 1, 1/5, false⟩ 3 (fun _ _ => 0) =
        [DrawOp.setFill 0 82 176, DrawOp.fillRect 0 0 ((3 : ℕ) : ℚ) ((3 : ℕ) : ℚ)] := by
  have hz : gridDim 3 10 = 0 := by
    unfold gridDim
    norm_num [min_def, max_def]
  refine ⟨⟨by norm_num [min_def, max_def], hz⟩, ?_⟩
  exact (renderKnitFrame_zero_grid_background_only (fun _ _ _ => 0)
    ⟨10, 1, 3/10, 1, 1, 1/5, false⟩ 3 (fun _ _ => 0)).2.2 hz

lemma bumpCount_ne_nil (l : List ((ℤ × ℤ × ℤ) × ℕ)) (k : ℤ × ℤ × ℤ) :
    bumpCount l k ≠ [] := by
  cases l with
  | nil => simp [bumpCount]
  | cons hd rest =>
      obtain ⟨k', c⟩ := hd
      rw [bumpCount]
      split_ifs <;> simp

lemma countFold_eq_nil (colors : List RGB) : ∀ acc,
    (colors.foldl (fun acc c => if colorMatch c BACKGROUND_COLOR 0.01 then acc
        else bumpCount acc (colorKey c)) acc = [] ↔
      acc = [] ∧ ∀ c ∈ colors, colorMatch c BACKGROUND_COLOR 0.01) := by
  induction colors with
  | nil => intro acc; simp
  | cons c rest ih =>
      intro acc
      rw [List.foldl_cons]
      by_cases hc : colorMatch c BACKGROUND_COLOR 0.01
      · rw [if_pos hc, ih acc]
        constructor
        · rintro ⟨h1, h2⟩
          refine ⟨h1, fun c' hc' => ?_⟩
          rcases List.mem_cons.mp hc' with rfl | h
          · exact hc
          · exact h2 _ h
        · rintro ⟨h1, h2⟩
          exact ⟨h1, fun c' hc' => h2 c' (List.mem_cons_of_mem c hc')⟩
      · rw [if_neg hc, ih _]
        constructor
        · rintro ⟨h1, -⟩
          exact absurd h1 (bumpCount_ne_nil acc (colorKey c))
        · rintro ⟨-, h2⟩
          exact absurd (h2 c (List.mem_cons_self c rest)) hc

lemma lookupCount_bumpCount_self (l : List ((ℤ × ℤ × ℤ) × ℕ)) (k : ℤ × ℤ × ℤ) :
    lookupCount (bumpCount l k) k = lookupCount l k + 1 := by
  induction l with
  | nil => simp [bumpCount, lookupCount]
  | cons hd rest ih =>
      obtain ⟨k', c⟩ := hd
      rw [bumpCount]
      by_cases h : k' = k
      · rw [if_pos h, lookupCount, lookupCount, if_pos h, if_pos h]
      · rw [if_neg h, lookupCount, lookupCount, if_neg h, if_neg h]
        exact ih

lemma lookupCount_bumpCount_other (l : List ((ℤ × ℤ × ℤ) × ℕ))
    (k k' : ℤ × ℤ × ℤ) (hne : k ≠ k') :
    lookupCount (bumpCount l k) k' = lookupCount l k' := by
  induction l with
  | nil => simp [bumpCount, lookupCount, hne]
  | cons hd rest ih =>
      obtain ⟨k2, c⟩ := hd
      rw [bumpCount]
      by_cases h : k2 = k
      · subst h
        rw [if_pos rfl, lookupCount, lookupCount, if_neg hne, if_neg hne]
      · rw [if_neg h, lookupCount, lookupCount]
        by_cases h2 : k2 = k'
        · rw [if_pos h2, if_pos h2]
        · rw [if_neg h2, if_neg h2]
          exact ih

lemma countFold_lookup (colors : List RGB) : ∀ acc (k : ℤ × ℤ × ℤ),
    lookupCount (colors.foldl (fun acc c => if colorMatch c BACKGROUND_COLOR 0.01
        then acc else bumpCount acc (colorKey c)) acc) k =
      lookupCount acc k + colors.countP (countedFor k) := by
  induction colors with
  | nil => intro acc k; simp
  | cons c rest ih =>
      intro acc k
      rw [List.foldl_cons, List.countP_cons]
      by_cases hc : colorMatch c BACKGROUND_COLOR 0.01
      · rw [if_pos hc, ih]
        have hqf : countedFor k c = false := by
          simp [countedFor, hc]
        rw [hqf]
        simp
      · rw [if_neg hc]
        by_cases hk : colorKey c = k
        · rw [ih, hk, lookupCount_bumpCount_self]
          have hqt : countedFor k c = true := by
            simp [countedFor, hc, hk]
          rw [hqt]
          simp
          omega
        · rw [ih, lookupCount_bumpCount_other _ _ _ hk]
          have hqf : countedFor k c = false := by
            simp [countedFor, hc, hk]
          rw [hqf]
          simp

lemma bumpCount_entries_pos (l : List ((ℤ × ℤ × ℤ) × ℕ)) (k : ℤ × ℤ × ℤ)
    (h : ∀ e ∈ l, 1 ≤ e.2) : ∀ e ∈ bumpCount l k, 1 ≤ e.2 := by
  induction l with
  | nil =>
      intro e he
      simp [bumpCount] at he
      rw [he]
  | cons hd rest ih =>
      obtain ⟨k', c⟩ := hd
      rw [bumpCount]
      split_ifs with hk
      · intro e he
        rcases List.mem_cons.mp he with rfl | he
        · exact Nat.succ_le_succ (Nat.zero_le c)
        · exact h e (List.mem_cons_of_mem _ he)
      · intro e he
        rcases List.mem_cons.mp he with rfl | he
        · exact h (k', c) (List.mem_cons_self _ _)
        · exact ih (fun e' he' => h e' (List.mem_cons_of_mem _ he')) e he

lemma countFold_entries_pos (colors : List RGB) : ∀ acc,
    (∀ e ∈ acc, 1 ≤ e.2) →
    ∀ e ∈ colors.foldl (fun acc c => if colorMatch c BACKGROUND_COLOR 0.01
        then acc else bumpCount acc (colorKey c)) acc, 1 ≤ e.2 := by
  induction colors with
  | nil => intro acc h; simpa using h
  | cons c rest ih =>
      intro acc h
      rw [List.foldl_cons]
      by_cases hc : colorMatch c BACKGROUND_COLOR 0.01
      · rw [if_pos hc]
        exact ih acc h
      · rw [if_neg hc]
        exact ih _ (bumpCount_entries_pos acc (colorKey c) h)

lemma promLoop_spec (l : List ((ℤ × ℤ × ℤ) × ℕ)) :
    ∀ acc : Option (ℤ × ℤ × ℤ) × ℕ,
    (promLoop l acc = acc ∧ ∀ e ∈ l, e.2 ≤ acc.2) ∨
    (∃ l1 e l2, l = l1 ++ e :: l2 ∧ promLoop l acc = (some e.1, e.2) ∧
      acc.2 < e.2 ∧ (∀ e' ∈ l1, e'.2 < e.2) ∧ ∀ e' ∈ l2, e'.2 ≤ e.2) := by
  induction l with
  | nil =>
      intro acc
      exact Or.inl ⟨rfl, by simp⟩
  | cons hd rest ih =>
      intro acc
      obtain ⟨k, c⟩ := hd
      rw [promLoop]
      by_cases hc : c > acc.2
      · rw [if_pos hc]
        rcases ih (some k, c) with ⟨hEq, hAll⟩ | ⟨l1, e, l2, hsplit, hres, hlt, hl1, hl2⟩
        · exact Or.inr ⟨[], (k, c), rest, by simp, hEq, hc, by simp, hAll⟩
        · refine Or.inr ⟨(k, c) :: l1, e, l2, by rw [hsplit]; rfl, hres,
            lt_trans hc hlt, ?_, hl2⟩
          intro e' he'
          rcases List.mem_cons.mp he' with rfl | he'
          · exact hlt
          · exact hl1 e' he'
      · rw [if_neg hc]
        rcases ih acc with ⟨hEq, hAll⟩ | ⟨l1, e, l2, hsplit, hres, hlt, hl1, hl2⟩
        · refine Or.inl ⟨hEq, ?_⟩
          intro e' he'
          rcases List.mem_cons.mp he' with rfl | he'
          · exact not_lt.mp hc
          · exact hAll e' he'
        · refine Or.inr ⟨(k, c) :: l1, e, l2, by rw [hsplit]; rfl, hres, hlt, ?_, hl2⟩
          intro e' he'
          rcases List.mem_cons.mp he' with rfl | he'
          · exact lt_of_le_of_lt (not_lt.mp hc) hlt
          · exact hl1 e' he'

/-- C3: the prominence analyzer counts exactly the cells that do not
match the background within the 0.01 per-channel tolerance (per rounded
color key), returns `none` precisely when every cell matches the
background, and otherwise returns the decoded key of an entry of the
count list with the highest count, every earlier entry (first-encounter
insertion order) having a strictly smaller count; on the grid where
yellow appears 10 times, navy 3 times and background fills the rest, it
returns yellow. -/
theorem prominence_analyzer_correct :
    (∀ colors : List RGB,
      (prominentColorOf colors = none ↔
        ∀ c ∈ colors, colorMatch c BACKGROUND_COLOR 0.01) ∧
      (∀ k, lookupCount (countColors colors) k = colors.countP (countedFor k)) ∧
      (∀ p, prominentColorOf colors = some p →
        ∃ k c l1 l2, countColors colors = l1 ++ (k, c) :: l2 ∧ p = keyToColor k ∧
          (∀ e ∈ l1, e.2 < c) ∧ ∀ e ∈ l2, e.2 ≤ c)) ∧
    prominentColorOf exampleCells = some paletteYellow := by
  refine ⟨fun colors => ⟨⟨?_, ?_⟩, ?_, ?_⟩, by with_unfolding_all decide⟩
  · intro hnone
    have h1 : (promLoop (countColors colors) (none, 0)).1 = none := by
      unfold prominentColorOf at hnone
      exact Option.map_eq_none'.mp hnone
    rcases promLoop_spec (countColors colors) (none, 0) with ⟨hEq, hAll⟩ |
        ⟨l1, e, l2, hsplit, hres, hlt, -, -⟩
    · have hpos := countFold_entries_pos colors [] (by simp)
      have hnil : countColors colors = [] := by
        cases hco : countColors colors with
        | nil => rfl
        | cons hd t =>
            exfalso
            have h2 := hAll hd (by rw [hco]; exact List.mem_cons_self hd t)
            have h3 : 1 ≤ hd.2 := by
              apply hpos
              show hd ∈ countColors colors
              rw [hco]
              exact List.mem_cons_self hd t
            have h4 : hd.2 ≤ 0 := h2
            omega
      exact ((countFold_eq_nil colors []).mp hnil).2
    · rw [hres] at h1
      exact absurd h1 (by simp)
  · intro hmatch
    have hnil : countColors colors = [] :=
      (countFold_eq_nil colors []).mpr ⟨rfl, hmatch⟩
    unfold prominentColorOf
    rw [hnil]
    rfl
  · intro k
    have hck := countFold_lookup colors [] k
    rw [lookupCount] at hck
    simpa [countColors] using hck
  · intro p hp
    unfold prominentColorOf at hp
    obtain ⟨k0, hk0, hpk⟩ := Option.map_eq_some'.mp hp
    rcases promLoop_spec (countColors colors) (none, 0) with ⟨hEq, -⟩ |
        ⟨l1, e, l2, hsplit, hres, -, hl1, hl2⟩
    · rw [hEq] at hk0
      exact absurd hk0 (by simp)
    · rw [hres] at hk0
      have hke : k0 = e.1 := by
        have := hk0
        simp at this
        exact this.symm
      exact ⟨e.1, e.2, l1, l2, hsplit, by rw [← hpk, hke], hl1, hl2⟩

/-- Witness for C3: on the concrete example grid the analyzer returns
yellow, and yellow decodes a maximal count entry whose earlier entries
all have strictly smaller counts. -/
theorem prominence_analyzer_correct_witness :
    prominentColorOf exampleCells = some paletteYellow ∧
      ∃ k c l1 l2, countColors exampleCells = l1 ++ (k, c) :: l2 ∧
        paletteYellow = keyToColor k ∧ (∀ e ∈ l1, e.2 < c) ∧ ∀ e ∈ l2, e.2 ≤ c := by
  refine ⟨prominence_analyzer_correct.2, ?_⟩
  exact (prominence_analyzer_correct.1 exampleCells).2.2 paletteYellow
    (by with_unfolding_all decide)
